import Mathlib

/-!
Shallow embedding of the research-agent pipeline (src/research_agent.py):
the DuckDuckGo result-list parser (WebSearcher.search), the content
extractor (ContentExtractor.fetch_content), the topic orchestrator
(ResearchAgent.research_topic) and the output formatter (ResultFormatter),
together with the theorems settling the specification claims.

HTML documents are modelled as element trees (the output of BeautifulSoup
parsing); Python strings are modelled as Lean strings, working at the
code-point level.
-/

namespace ResearchAgent

/-- Characters stripped by Python str.strip() (ASCII whitespace). -/
def isPySpace (c : Char) : Bool :=
  c = ' ' || c = '\t' || c = '\n' || c = '\r' || c = '\x0b' || c = '\x0c'

/-- Model of Python str.strip(): drop leading and trailing whitespace. -/
def pyStrip (s : String) : String :=
  ⟨(s.data.dropWhile isPySpace).reverse.dropWhile isPySpace |>.reverse⟩

/-- Model of Python sep.join(xs). -/
def pyJoin (sep : String) : List String → String
  | [] => ""
  | [x] => x
  | x :: y :: rest => x ++ sep ++ pyJoin sep (y :: rest)

/-- Model of the Python slice s[:n] on a string (for n ≥ 0). -/
def pyTake (s : String) (n : Nat) : String := ⟨s.data.take n⟩

/-- Model of Python s.startswith(p). -/
def pyStartswith (s p : String) : Bool := p.data.isPrefixOf s.data

/-- HTML node tree as produced by BeautifulSoup from a page: an element
with a tag name, its class list (the multi-valued class attribute), its
other attributes, and children; or a text node (NavigableString). -/
inductive Node where
  | elem (tag : String) (classes : List String)
      (attrs : List (String × String)) (children : List Node)
  | text (s : String)

mutual

/-- Proper descendants of a node in document (preorder) order; this is the
iteration order of BeautifulSoup find / find_all on a tag or on the soup. -/
def Node.descendants : Node → List Node
  | .text _ => []
  | .elem _ _ _ cs => Node.descList cs

/-- Descendant lists of a forest of siblings, in document order. -/
def Node.descList : List Node → List Node
  | [] => []
  | c :: cs => c :: c.descendants ++ Node.descList cs

end

mutual

/-- All NavigableString pieces in a subtree, in document order (the
strings that bs4 get_text concatenates). -/
def Node.textPieces : Node → List String
  | .text s => [s]
  | .elem _ _ _ cs => Node.textPiecesList cs

/-- Text pieces of a forest of siblings, in document order. -/
def Node.textPiecesList : List Node → List String
  | [] => []
  | c :: cs => c.textPieces ++ Node.textPiecesList cs

end

/-- Attribute lookup on an element, modelling tag.get(key) returning the
first binding or None. -/
def Node.attr : Node → String → Option String
  | .elem _ _ attrs _, k => attrs.lookup k
  | .text _, _ => none

/-- Tag-name test: true when the node is an element with the given tag. -/
def Node.hasTag : Node → String → Bool
  | .elem t _ _ _, tag => t = tag
  | .text _, _ => false

/-- Matcher for find_all(tag, class_=cls): element with the tag whose class
list contains cls. -/
def Node.matchesTagClass (n : Node) (tag cls : String) : Bool :=
  match n with
  | .elem t classes _ _ => t = tag && classes.contains cls
  | .text _ => false

/-- Model of soup.find_all(tag, class_=cls): all matching descendants in
document order. -/
def findAllTagClass (n : Node) (tag cls : String) : List Node :=
  n.descendants.filter (fun d => d.matchesTagClass tag cls)

/-- Model of tag.find(tag, class_=cls): the first matching descendant. -/
def findTagClass (n : Node) (tag cls : String) : Option Node :=
  n.descendants.find? (fun d => d.matchesTagClass tag cls)

/-- Model of soup.find(tag) (also written soup.tagname): the first
descendant element with the given tag. -/
def findTag (n : Node) (tag : String) : Option Node :=
  n.descendants.find? (fun d => d.hasTag tag)

/-- Model of bs4 get_text(separator=sep, strip=True): each string piece is
stripped, empty pieces are skipped, and the rest joined with sep. -/
def getTextStrip (sep : String) (n : Node) : String :=
  pyJoin sep (((n.textPieces).map pyStrip).filter (fun s => s ≠ ""))

/-- Hexadecimal digit test, as used by urllib percent-decoding. -/
def isHexDigit (c : Char) : Bool :=
  c.isDigit || ('a' ≤ c && c ≤ 'f') || ('A' ≤ c && c ≤ 'F')

/-- Value of a hexadecimal digit character. -/
def hexVal (c : Char) : Nat :=
  if c.isDigit then c.toNat - 48
  else if 'a' ≤ c && c ≤ 'f' then c.toNat - 87
  else c.toNat - 55

/-- Percent-decoding scan of urllib.parse.unquote, modelled at the
code-point level (Python decodes percent escapes to bytes and then applies
UTF-8 with replacement; for ASCII data the two coincide): a percent sign
followed by two hex digits becomes the character with that value; a
malformed percent escape is left untouched. -/
def unquoteAux : List Char → List Char
  | [] => []
  | c :: rest =>
    if c = '%' then
      match rest with
      | h1 :: h2 :: rest2 =>
        if isHexDigit h1 && isHexDigit h2 then
          Char.ofNat (16 * hexVal h1 + hexVal h2) :: unquoteAux rest2
        else '%' :: unquoteAux (h1 :: h2 :: rest2)
      | [x] => ['%', x]
      | [] => ['%']
    else c :: unquoteAux rest

/-- Model of urllib.parse.unquote_plus: plus signs become spaces, then
percent escapes are decoded. -/
def unquotePlus (s : String) : String :=
  ⟨unquoteAux (s.data.map (fun c => if c = '+' then ' ' else c))⟩

/-- Query component of a URL as computed by urllib.parse.urlparse: strip
the fragment at the first hash, then take what follows the first question
mark (empty when there is none). -/
def urlQuery (s : String) : String :=
  let noFrag := s.data.takeWhile (fun c => c ≠ '#')
  ⟨(noFrag.dropWhile (fun c => c ≠ '?')).drop 1⟩

/-- One name=value pair of a query string, as accepted by
urllib.parse.parse_qsl with default arguments: empty pairs, pairs without
an equals sign and pairs with an empty raw value are dropped; name and
value are unquote_plus-decoded. -/
def qsPair (p : String) : Option (String × String) :=
  if p = "" then none
  else if p.data.contains '=' then
    let name : String := ⟨p.data.takeWhile (fun c => c ≠ '=')⟩
    let value : String := ⟨(p.data.dropWhile (fun c => c ≠ '=')).drop 1⟩
    if value = "" then none
    else some (unquotePlus name, unquotePlus value)
  else none

/-- Split of a character list at every occurrence of the separator,
modelling Python str.split with a one-character separator (an empty
string yields one empty group). -/
def splitList (sep : Char) : List Char → List (List Char)
  | [] => [[]]
  | c :: cs =>
    if c = sep then [] :: splitList sep cs
    else
      match splitList sep cs with
      | [] => [[c]]
      | g :: gs => (c :: g) :: gs

/-- Model of urllib.parse.parse_qsl with default arguments: split the
query on ampersands and keep the accepted pairs in order. -/
def parseQsl (q : String) : List (String × String) :=
  (splitList '&' q.data).filterMap (fun p => qsPair ⟨p⟩)

/-- Redirect resolution of WebSearcher.search (lines 62-71): when the raw
URL is a DuckDuckGo redirect wrapper, substitute the first decoded uddg
query value when it is non-empty; otherwise keep the raw URL. -/
def resolveRedirect (url : String) : String :=
  if pyStartswith url "//duckduckgo.com/l/?" then
    let actualUrl := ((parseQsl (urlQuery url)).lookup "uddg").getD ""
    if actualUrl ≠ "" then actualUrl else url
  else url

/-- Unreserved characters kept verbatim by urllib.parse.quote. -/
def isUnreserved (c : Char) : Bool :=
  c.isAlphanum || c = '-' || c = '_' || c = '.' || c = '~'

/-- Uppercase hexadecimal digit character for a value below 16. -/
def hexDigitCharUpper (n : Nat) : Char :=
  if n < 10 then Char.ofNat (48 + n) else Char.ofNat (55 + n)

/-- Percent-encoding of one character, following urllib.parse.quote with
an empty safe set, at the code-point level (exact for ASCII input). -/
def pctEncChar (c : Char) : List Char :=
  if isUnreserved c then [c]
  else ['%', hexDigitCharUpper (c.toNat / 16), hexDigitCharUpper (c.toNat % 16)]

/-- Model of urllib.parse.quote with an empty safe set, on ASCII input:
the encoder a search engine applies to the destination inside a
redirect-wrapper URL. -/
def percentEncode (s : String) : String :=
  ⟨s.data.flatMap pctEncChar⟩

/-- Search-result record produced by WebSearcher.search: the dict with
title, url and snippet keys. -/
structure SearchResultStub where
  title : String
  url : String
  snippet : String
deriving DecidableEq

/-- Per-container body of the WebSearcher.search parsing loop (lines
53-77): find the title anchor (skip the container when absent), read the
title text, the href (default empty) with redirect resolution, and the
snippet text (empty when the snippet anchor is absent). -/
def mkStub (c : Node) : Option SearchResultStub :=
  match findTagClass c "a" "result__a" with
  | none => none
  | some titleTag =>
    let title := getTextStrip "" titleTag
    let url := (titleTag.attr "href").getD ""
    let snippet :=
      match findTagClass c "a" "result__snippet" with
      | some snippetTag => getTextStrip "" snippetTag
      | none => ""
    some { title := title, url := resolveRedirect url, snippet := snippet }

/-- Model of WebSearcher.search (lines 52-79) on an already parsed results
page: take the result containers in document order capped at maxResults,
and parse each, skipping containers without a title anchor. -/
def search (soup : Node) (maxResults : Nat) : List SearchResultStub :=
  ((findAllTagClass soup "div" "result").take maxResults).filterMap mkStub

/-- Tags decomposed by ContentExtractor.fetch_content (line 123). -/
def denylist : List String := ["script", "style", "nav", "footer", "header", "aside"]

/-- Denylisted-element test. -/
def Node.isDenied : Node → Bool
  | .elem t _ _ _ => denylist.contains t
  | .text _ => false

mutual

/-- Model of the decompose loop (lines 122-124): every element whose tag
is in the denylist is removed from the tree together with its whole
subtree. -/
def Node.clean : Node → Node
  | .text s => .text s
  | .elem t cl a cs => .elem t cl a (Node.cleanList cs)

/-- Denylist removal over a forest of siblings. -/
def Node.cleanList : List Node → List Node
  | [] => []
  | c :: cs =>
    if c.isDenied then Node.cleanList cs else c.clean :: Node.cleanList cs

end

mutual

/-- Text pieces of a subtree that do not originate from a denylisted
element: a piece is kept exactly when no denylisted tag lies on the path
from the root to its text node (the root node itself included). -/
def Node.allowedTexts : Node → List String
  | .text s => [s]
  | .elem t _ _ cs =>
    if denylist.contains t then [] else Node.allowedTextsList cs

/-- Allowed text pieces of a forest of siblings. -/
def Node.allowedTextsList : List Node → List String
  | [] => []
  | c :: cs => c.allowedTexts ++ Node.allowedTextsList cs

end

/-- Model of bs4 Tag.string: the single NavigableString child, descending
through a chain of single-child tags; None when the node has zero children
or more than one child. -/
def tagString : Node → Option String
  | .text s => some s
  | .elem _ _ _ [c] => tagString c
  | .elem _ _ _ _ => none

/-- Title resolution of ContentExtractor.fetch_content (lines 116-120):
when a title element exists (bs4 tags are truthy even when empty), its
string stripped when truthy, else empty; only when no title element exists
at all is the first h1 consulted; else empty. -/
def extractTitle (soup : Node) : String :=
  match findTag soup "title" with
  | some titleTag =>
    match tagString titleTag with
    | some s => if s ≠ "" then pyStrip s else ""
    | none => ""
  | none =>
    match findTag soup "h1" with
    | some h1 => getTextStrip "" h1
    | none => ""

/-- Block-level tags that the markdown renderer separates with blank
lines. -/
def blockTags : List String :=
  ["p", "div", "section", "body", "main", "article", "ul", "ol", "li",
   "h1", "h2", "h3", "h4", "h5", "h6", "blockquote", "pre", "table", "tr"]

mutual

/-- Model of html2text.HTML2Text().handle applied to the serialized
region (lines 94-97 configuration and line 131): hyperlinks are kept as
markdown links with their href target, images are dropped
(ignore_images), text is not wrapped (body_width 0), and block elements
are separated by blank lines. -/
def mdRender : Node → String
  | .text s => s
  | .elem "a" _ attrs cs =>
    "[" ++ mdRenderList cs ++ "](" ++ ((attrs.lookup "href").getD "") ++ ")"
  | .elem "img" _ _ _ => ""
  | .elem t _ _ cs =>
    if blockTags.contains t then mdRenderList cs ++ "\n\n" else mdRenderList cs

/-- Markdown rendering of a forest of siblings. -/
def mdRenderList : List Node → String
  | [] => ""
  | c :: cs => mdRender c ++ mdRenderList cs

end

/-- Dict returned by ContentExtractor.fetch_content on success: title,
url, markdown content and plain text. -/
structure PageContent where
  title : String
  url : String
  content : String
  text : String
deriving DecidableEq

/-- Model of ContentExtractor.fetch_content (lines 109-146) on a
successfully fetched and parsed document tree (the network fetch and the
HTML parse are external effects; a fetch or parse failure is the None
outcome handled by the caller): extract the title, decompose the
denylisted elements, select the main content region as the first main
element, else the first article, else the body (bs4 tags are always
truthy, so the or-chain is a first-found chain), and render the region to
markdown and to newline-separated stripped plain text. -/
def fetch_content (url : String) (soup : Node) : Option PageContent :=
  let title := extractTitle soup
  let cleaned := soup.clean
  match (findTag cleaned "main" |>.orElse fun _ => findTag cleaned "article")
      |>.orElse fun _ => findTag cleaned "body" with
  | some region =>
    some { title := title, url := url,
           content := mdRender region, text := getTextStrip "\n" region }
  | none => none

/-- Entry of the topic-mode results list: the search stub dict spread
together with the extracted key (optional so the formatter model covers
both shapes; research_topic itself only ever stores a present value). -/
structure EnrichedResult where
  title : String
  url : String
  snippet : String
  extracted : Option PageContent
deriving DecidableEq

/-- Topic-mode research document: the dict with query and results keys
returned by ResearchAgent.research_topic. -/
structure TopicDocument where
  query : String
  results : List EnrichedResult
deriving DecidableEq

/-- Document handed to ResultFormatter: either the topic-mode dict (has a
query key) or the single-URL content dict. -/
inductive ResearchDocument where
  | topic (doc : TopicDocument)
  | single (content : PageContent)
deriving DecidableEq

/-- Enriched dict built at lines 205-208. -/
def enrich (r : SearchResultStub) (c : PageContent) : EnrichedResult :=
  { title := r.title, url := r.url, snippet := r.snippet, extracted := some c }

/-- Model of ResearchAgent.research_topic (lines 157-217), parameterized
by the searcher outcome and the per-URL fetch-and-extract outcome (both
involve the network): when the search yields nothing return an empty
document; otherwise keep, in search order, exactly those stubs whose
extraction succeeded, each together with its extracted content. -/
def research_topic (searchO : String → Nat → List SearchResultStub)
    (fetchO : String → Option PageContent)
    (query : String) (maxResults : Nat) : TopicDocument :=
  let searchResults := searchO query maxResults
  if searchResults.isEmpty then { query := query, results := [] }
  else
    { query := query,
      results := searchResults.filterMap fun r => (fetchO r.url).map (enrich r) }

/-- Marker appended by the markdown formatter when a body is truncated. -/
def truncMarker : String := "\n\n*[Content truncated...]*"

/-- Lines appended by one iteration of the format_markdown results loop
(lines 262-275), for the 1-based index i. -/
def mdEntry (i : Nat) (r : EnrichedResult) : List String :=
  ["## " ++ toString i ++ ". " ++ r.title ++ "\n",
   "**URL:** " ++ r.url ++ "\n",
   "**Summary:** " ++ r.snippet ++ "\n"]
  ++ (match r.extracted with
      | some c =>
        ["\n### Content\n",
         if 5000 < c.content.length then pyTake c.content 5000 ++ truncMarker
         else c.content]
      | none => [])
  ++ ["\n---\n"]

/-- Lines of the whole format_markdown results loop, enumerating from i. -/
def mdEntries : Nat → List EnrichedResult → List String
  | _, [] => []
  | i, r :: rs => mdEntry i r ++ mdEntries (i + 1) rs

/-- Model of ResultFormatter.format_markdown (lines 252-284): topic
documents get the research header and the per-result blocks (bodies
truncated at 5000 characters); single-URL documents get a title heading, a
URL line, a separator and the untruncated markdown body. -/
def format_markdown : ResearchDocument → String
  | .topic d =>
    pyJoin "\n"
      (["# Research: " ++ d.query ++ "\n",
        "*Generated by Research Agent*\n",
        "*Found " ++ toString d.results.length ++ " results*\n",
        "---\n"] ++ mdEntries 1 d.results)
  | .single c =>
    pyJoin "\n"
      (["# " ++ c.title ++ "\n",
        "**URL:** " ++ c.url ++ "\n",
        "\n---\n",
        c.content])

/-- JSON values covering the document dicts: strings, arrays and objects
with ordered fields. -/
inductive Json where
  | str (s : String)
  | arr (items : List Json)
  | obj (fields : List (String × Json))

/-- Lowercase hexadecimal digit character for a value below 16. -/
def hexDigitChar (n : Nat) : Char :=
  if n < 10 then Char.ofNat (48 + n) else Char.ofNat (87 + n)

/-- Escape of one character inside a JSON string, following Python
json.dumps with ensure_ascii False: backslash, quote and the named control
escapes, a lowercase u-escape for the remaining control characters, and
every other character emitted raw. -/
def jsonEscapeChar (c : Char) : List Char :=
  if c = '\\' then ['\\', '\\']
  else if c = '"' then ['\\', '"']
  else if c = '\x08' then ['\\', 'b']
  else if c = '\x0c' then ['\\', 'f']
  else if c = '\n' then ['\\', 'n']
  else if c = '\r' then ['\\', 'r']
  else if c = '\t' then ['\\', 't']
  else if c.toNat < 32 then
    ['\\', 'u', '0', '0', hexDigitChar (c.toNat / 16), hexDigitChar (c.toNat % 16)]
  else [c]

/-- JSON string literal for s, following json.dumps. -/
def jsonDumpString (s : String) : String :=
  ⟨'"' :: (s.data.flatMap jsonEscapeChar ++ ['"'])⟩

/-- Indentation emitted by json.dumps(indent=2) at the given depth. -/
def indentStr (level : Nat) : String := ⟨List.replicate (2 * level) ' '⟩

mutual

/-- Model of Python json.dumps(v, indent=2, ensure_ascii=False) at the
given nesting depth: each container opens on its own line, items are
indented two further spaces, separated by a comma plus newline, and the
closing bracket returns to the container's depth; empty containers are
inline. -/
def dumpsJson (level : Nat) : Json → String
  | .str s => jsonDumpString s
  | .arr [] => "[]"
  | .arr (x :: xs) =>
    "[\n" ++ indentStr (level + 1) ++ dumpsJson (level + 1) x
      ++ dumpsArrRest (level + 1) xs ++ "\n" ++ indentStr level ++ "]"
  | .obj [] => "\x7b\x7d"
  | .obj ((k, v) :: kvs) =>
    "\x7b\n" ++ indentStr (level + 1) ++ jsonDumpString k ++ ": "
      ++ dumpsJson (level + 1) v ++ dumpsObjRest (level + 1) kvs
      ++ "\n" ++ indentStr level ++ "\x7d"

/-- Remaining array items, each preceded by a comma, newline and indent. -/
def dumpsArrRest (level : Nat) : List Json → String
  | [] => ""
  | x :: xs => ",\n" ++ indentStr level ++ dumpsJson level x ++ dumpsArrRest level xs

/-- Remaining object fields, each preceded by a comma, newline and indent. -/
def dumpsObjRest (level : Nat) : List (String × Json) → String
  | [] => ""
  | (k, v) :: kvs =>
    ",\n" ++ indentStr level ++ jsonDumpString k ++ ": " ++ dumpsJson level v
      ++ dumpsObjRest level kvs

end

/-- JSON value of the content dict, fields in Python insertion order. -/
def contentToJson (c : PageContent) : Json :=
  .obj [("title", .str c.title), ("url", .str c.url),
        ("content", .str c.content), ("text", .str c.text)]

/-- JSON value of one results entry: the stub fields followed by the
extracted dict when present. -/
def resultToJson (r : EnrichedResult) : Json :=
  .obj ([("title", .str r.title), ("url", .str r.url),
         ("snippet", .str r.snippet)]
    ++ match r.extracted with
       | some c => [("extracted", contentToJson c)]
       | none => [])

/-- JSON value of a research document, mirroring the dict layouts. -/
def docToJson : ResearchDocument → Json
  | .topic d =>
    .obj [("query", .str d.query),
          ("results", .arr (d.results.map resultToJson))]
  | .single c => contentToJson c

/-- Model of ResultFormatter.format_json (lines 286-289):
json.dumps(data, indent=2, ensure_ascii=False). -/
def format_json (doc : ResearchDocument) : String :=
  dumpsJson 0 (docToJson doc)

/-- Whitespace skipped between JSON tokens. -/
def skipWs (s : List Char) : List Char :=
  s.dropWhile (fun c => c = ' ' || c = '\n' || c = '\t' || c = '\r')

/-- Helper prepending a decoded character to a string-parse result. -/
def consFst (c : Char) : Option (List Char × List Char) → Option (List Char × List Char)
  | some (cs, rest) => some (c :: cs, rest)
  | none => none

/-- Body of a JSON string literal after the opening quote: decode until
the closing quote, handling the backslash escapes, and return the decoded
characters together with the rest of the input. -/
def parseStrAux : List Char → Option (List Char × List Char)
  | [] => none
  | c :: rest =>
    if c = '"' then some ([], rest)
    else if c = '\\' then
      match rest with
      | [] => none
      | e :: rest2 =>
        if e = '"' then consFst '"' (parseStrAux rest2)
        else if e = '\\' then consFst '\\' (parseStrAux rest2)
        else if e = '/' then consFst '/' (parseStrAux rest2)
        else if e = 'b' then consFst '\x08' (parseStrAux rest2)
        else if e = 'f' then consFst '\x0c' (parseStrAux rest2)
        else if e = 'n' then consFst '\n' (parseStrAux rest2)
        else if e = 'r' then consFst '\r' (parseStrAux rest2)
        else if e = 't' then consFst '\t' (parseStrAux rest2)
        else if e = 'u' then
          match rest2 with
          | h1 :: h2 :: h3 :: h4 :: rest3 =>
            if isHexDigit h1 && isHexDigit h2 && isHexDigit h3 && isHexDigit h4 then
              consFst
                (Char.ofNat
                  (((hexVal h1 * 16 + hexVal h2) * 16 + hexVal h3) * 16 + hexVal h4))
                (parseStrAux rest3)
            else none
          | _ => none
        else none
    else consFst c (parseStrAux rest)

/-- JSON string literal: an opening quote followed by the escaped body. -/
def parseJString (s : List Char) : Option (String × List Char) :=
  match s with
  | '"' :: rest =>
    match parseStrAux rest with
    | some (cs, r) => some (⟨cs⟩, r)
    | none => none
  | _ => none

/-- Comma token with surrounding whitespace. -/
def parseComma (s : List Char) : Option (List Char) :=
  match skipWs s with
  | ',' :: r => some r
  | _ => none

/-- Object field whose key must equal the given name and whose value is a
JSON string: returns the decoded value. -/
def parseKeyString (key : String) (s : List Char) : Option (String × List Char) := do
  let (k, s1) ← parseJString (skipWs s)
  if k = key then
    match skipWs s1 with
    | ':' :: s2 => parseJString (skipWs s2)
    | _ => none
  else none

/-- Content dict: an object with the four string fields title, url,
content and text, in order. -/
def parseContentObj (s : List Char) : Option (PageContent × List Char) :=
  match skipWs s with
  | '\x7b' :: s0 => do
    let (t, s1) ← parseKeyString "title" s0
    let s1 ← parseComma s1
    let (u, s2) ← parseKeyString "url" s1
    let s2 ← parseComma s2
    let (co, s3) ← parseKeyString "content" s2
    let s3 ← parseComma s3
    let (tx, s4) ← parseKeyString "text" s3
    match skipWs s4 with
    | '\x7d' :: s5 => some (⟨t, u, co, tx⟩, s5)
    | _ => none
  | _ => none

/-- Results entry: an object with title, url and snippet string fields
and, optionally, an extracted content dict. -/
def parseResultObj (s : List Char) : Option (EnrichedResult × List Char) :=
  match skipWs s with
  | '\x7b' :: s0 => do
    let (t, s1) ← parseKeyString "title" s0
    let s1 ← parseComma s1
    let (u, s2) ← parseKeyString "url" s1
    let s2 ← parseComma s2
    let (sn, s3) ← parseKeyString "snippet" s2
    match skipWs s3 with
    | '\x7d' :: s4 => some (⟨t, u, sn, none⟩, s4)
    | ',' :: s4 => do
      let (k, s5) ← parseJString (skipWs s4)
      if k = "extracted" then
        match skipWs s5 with
        | ':' :: s6 => do
          let (c, s7) ← parseContentObj s6
          match skipWs s7 with
          | '\x7d' :: s8 => some (⟨t, u, sn, some c⟩, s8)
          | _ => none
        | _ => none
      else none
    | _ => none
  | _ => none

/-- Non-empty tail of a results array: entries separated by commas up to
the closing bracket; the fuel bounds the number of entries. -/
def parseResultsAux : Nat → List Char → Option (List EnrichedResult × List Char)
  | 0, _ => none
  | fuel + 1, s => do
    let (r, s1) ← parseResultObj s
    match skipWs s1 with
    | ']' :: s2 => some ([r], s2)
    | ',' :: s2 => do
      let (rs, s3) ← parseResultsAux fuel s2
      some (r :: rs, s3)
    | _ => none

/-- Results array: empty brackets or a comma-separated entry list; the
fuel handed to the entry loop is bounded by the input length. -/
def parseResultsArr (s : List Char) : Option (List EnrichedResult × List Char) :=
  match skipWs s with
  | '[' :: s0 =>
    if (skipWs s0).head? = some ']' then some ([], (skipWs s0).tail)
    else parseResultsAux (s0.length + 1) s0
  | _ => none

/-- Deserializer for the JSON output of format_json: reads the outer
object and dispatches on its first key the way the formatter dispatches on
the presence of a query key — a query document with its results array, or
a bare content dict starting with its title field. -/
def parse_document (out : String) : Option ResearchDocument :=
  match skipWs out.data with
  | '\x7b' :: s0 => do
    let (k, s1) ← parseJString (skipWs s0)
    match skipWs s1 with
    | ':' :: s2 =>
      if k = "query" then do
        let (q, s3) ← parseJString (skipWs s2)
        let s4 ← parseComma s3
        let (k2, s5) ← parseJString (skipWs s4)
        if k2 = "results" then
          match skipWs s5 with
          | ':' :: s6 => do
            let (rs, s7) ← parseResultsArr s6
            match skipWs s7 with
            | '\x7d' :: _ => some (.topic ⟨q, rs⟩)
            | _ => none
          | _ => none
        else none
      else if k = "title" then do
        let (t, s3) ← parseJString (skipWs s2)
        let s4 ← parseComma s3
        let (u, s5) ← parseKeyString "url" s4
        let s5 ← parseComma s5
        let (co, s6) ← parseKeyString "content" s5
        let s6 ← parseComma s6
        let (tx, s7) ← parseKeyString "text" s6
        match skipWs s7 with
        | '\x7d' :: _ => some (.single ⟨t, u, co, tx⟩)
        | _ => none
      else none
    | _ => none
  | _ => none

/-- Definition following the specification wording for claim C9: an
absolute URL in the sense of the spec carries an explicit http or https
scheme (a scheme-relative URL starting with two slashes is not absolute). -/
def isAbsoluteHttpUrl (u : String) : Bool :=
  pyStartswith u "http://" || pyStartswith u "https://"

/-- Definition following the claim C4 wording (for comparison with the
code): title is the text of the title element when that text is
non-empty, otherwise the text of the first h1 when one exists, otherwise
empty. -/
def specTitleResolution (soup : Node) : String :=
  let t :=
    match findTag soup "title" with
    | some tl => getTextStrip "" tl
    | none => ""
  if t ≠ "" then t
  else
    match findTag soup "h1" with
    | some h1 => getTextStrip "" h1
    | none => ""

/-- Fixture searcher outcome used by concrete instances: three stubs. -/
def cexSearchO : String → Nat → List SearchResultStub :=
  fun _ _ => [⟨"t1", "u1", "s1"⟩, ⟨"t2", "u2", "s2"⟩, ⟨"t3", "u3", "s3"⟩]

/-- Fixture extraction outcome failing exactly on the second URL. -/
def cexFetchO : String → Option PageContent :=
  fun u => if u = "u2" then none else some ⟨"T", u, "C", "X"⟩

/-- Fixture result anchor with an href. -/
def anchor1W : Node := .elem "a" ["result__a"] [("href", "https://x.org/1")] [.text "Title 1"]

/-- Fixture result container with title anchor and snippet. -/
def cont1W : Node :=
  .elem "div" ["result"] [] [anchor1W, .elem "a" ["result__snippet"] [] [.text " snip "]]

/-- Fixture title anchor without href attribute. -/
def anchor2W : Node := .elem "a" ["result__a"] [] [.text "Title 2"]

/-- Fixture result container whose title anchor has no href and that has
no snippet element. -/
def cont2W : Node := .elem "div" ["result"] [] [anchor2W]

/-- Fixture results page with two well-formed containers. -/
def page1W : Node := .elem "[document]" [] [] [.elem "body" [] [] [cont1W, cont2W]]

/-- Fixture container whose title anchor href is a redirect wrapper with
no destination parameter. -/
def redirCont : Node :=
  .elem "div" ["result"] []
    [.elem "a" ["result__a"] [("href", "//duckduckgo.com/l/?x=1")] [.text "R"]]

/-- Fixture results page containing the undecodable redirect container. -/
def redirPage : Node := .elem "[document]" [] [] [.elem "body" [] [] [redirCont]]

/-- Fixture title element with whitespace-padded string. -/
def titleNodeW : Node := .elem "title" [] [] [.text " T "]

/-- Fixture page with a title element. -/
def titlePageW : Node := .elem "[document]" [] [] [.elem "head" [] [] [titleNodeW]]

/-- Fixture h1 element. -/
def h1NodeW : Node := .elem "h1" [] [] [.text "Foo"]

/-- Fixture page with no title element and an h1. -/
def h1PageW : Node := .elem "[document]" [] [] [.elem "body" [] [] [h1NodeW]]

/-- Fixture page with an empty title element and a non-empty h1: the
input separating the code from the claim C4 resolution order. -/
def titleCexPage : Node :=
  .elem "[document]" [] []
    [.elem "html" [] []
      [.elem "head" [] [] [.elem "title" [] [] []],
       .elem "body" [] [] [.elem "h1" [] [] [.text "Foo"]]]]

/-- Fixture main element. -/
def mainNodeW : Node := .elem "main" [] [] [.text "M"]

/-- Fixture page containing a main element. -/
def mainPageW : Node := .elem "[document]" [] [] [.elem "body" [] [] [mainNodeW]]

/-- Fixture page whose body holds a nav element and a kept text node. -/
def denyPageW : Node :=
  .elem "[document]" [] []
    [.elem "body" [] [] [.elem "nav" [] [] [.text "NAVTEXT"], .text "keep"]]

/-- Extraction outcome of the denylist fixture page. -/
def denyPC : PageContent := ⟨"", "u", "keep\n\n", "keep"⟩

/-- Fixture page whose body exists but carries no text at all. -/
def emptyBodyPage : Node :=
  .elem "[document]" [] [] [.elem "html" [] [] [.elem "body" [] [] []]]

/-- Markdown body longer than the 5000-character cutoff. -/
def bigContent : String := ⟨List.replicate 6000 'a'⟩

/-- Markdown body below the 5000-character cutoff. -/
def smallContent : String := ⟨List.replicate 40 'b'⟩

/-- Results entry with the long body. -/
def r6a : EnrichedResult := ⟨"t", "u", "s", some ⟨"T", "U", bigContent, "X"⟩⟩

/-- Results entry with the short body. -/
def r6b : EnrichedResult := ⟨"t2", "u2", "s2", some ⟨"T", "U", smallContent, "X"⟩⟩

/-- Helper: the filterMap by the enrichment step equals mapping over the
stubs that pass the extraction filter. -/
theorem results_filterMap_enrich (fetchO : String → Option PageContent) :
    ∀ l : List SearchResultStub,
      l.filterMap (fun r => (fetchO r.url).map (enrich r))
        = (l.filter fun s => (fetchO s.url).isSome).map
            (fun s => { title := s.title, url := s.url, snippet := s.snippet,
                        extracted := fetchO s.url }) := by
  intro l
  induction l with
  | nil => rfl
  | cons a t ih => cases h : fetchO a.url <;> simp [h, enrich, ih]

/-- Claim C1, amended (the code drops failed stubs rather than keeping
them): the topic-mode results sequence consists of exactly those search
stubs whose per-URL extraction succeeded, in original search order, each
carrying its extracted content; stubs whose extraction failed are omitted
from the sequence. -/
theorem research_topic_results_eq
    (searchO : String → Nat → List SearchResultStub)
    (fetchO : String → Option PageContent) (q : String) (M : Nat) :
    (research_topic searchO fetchO q M).results
      = ((searchO q M).filter fun s => (fetchO s.url).isSome).map
          (fun s => { title := s.title, url := s.url, snippet := s.snippet,
                      extracted := fetchO s.url }) := by
  cases he : (searchO q M).isEmpty with
  | true =>
    have h0 : searchO q M = [] := List.isEmpty_iff.mp he
    simp [research_topic, he, h0]
  | false =>
    simp only [research_topic, he, Bool.false_eq_true, if_false]
    exact results_filterMap_enrich fetchO (searchO q M)

/-- Claim C1, counterexample to the claim as stated: with three search
stubs and extraction failing on the second URL, the final document does
not contain the second stub at all (the claim asserts it would remain at
its rank with only the extracted field absent). -/
theorem research_topic_drops_failed_stub :
    (research_topic cexSearchO cexFetchO "q" 3).results
        = [⟨"t1", "u1", "s1", some ⟨"T", "u1", "C", "X"⟩⟩,
           ⟨"t3", "u3", "s3", some ⟨"T", "u3", "C", "X"⟩⟩]
      ∧ ∀ r ∈ (research_topic cexSearchO cexFetchO "q" 3).results, r.url ≠ "u2" := by
  decide

/-- Helper: a filterMap whose function succeeds on every element keeps
the length of the list. -/
theorem filterMap_length_of_isSome {α β : Type} (f : α → Option β) :
    ∀ l : List α, (∀ x ∈ l, (f x).isSome = true) → (l.filterMap f).length = l.length := by
  intro l
  induction l with
  | nil => intro _; rfl
  | cons a t ih =>
    intro h
    have ha := h a (List.mem_cons_self a t)
    cases hfa : f a with
    | none => rw [hfa] at ha; simp at ha
    | some b =>
      simp only [List.filterMap_cons, hfa, List.length_cons]
      rw [ih fun x hx => h x (List.mem_cons_of_mem a hx)]

/-- Helper: a filterMap whose function succeeds on every element maps
positions one to one. -/
theorem filterMap_getElem_of_isSome {α β : Type} (f : α → Option β) :
    ∀ (l : List α), (∀ x ∈ l, (f x).isSome = true) → ∀ i : Nat,
      (l.filterMap f)[i]? = l[i]? >>= f := by
  intro l
  induction l with
  | nil => intro _ i; simp
  | cons a t ih =>
    intro h i
    have ha := h a (List.mem_cons_self a t)
    cases hfa : f a with
    | none => rw [hfa] at ha; simp at ha
    | some b =>
      cases i with
      | zero => simp [List.filterMap_cons, hfa]
      | succ n =>
        simp only [List.filterMap_cons, hfa, List.getElem?_cons_succ]
        exact ih (fun x hx => h x (List.mem_cons_of_mem a hx)) n

/-- Claim C2 (confirmed): on a results page whose result containers all
carry a title anchor, the parser returns exactly min(K, maxResults) stubs,
and the stub at every index is the parse of the container at the same
index, so document order is preserved. -/
theorem search_min_count (soup : Node) (M : Nat)
    (h : ∀ c ∈ findAllTagClass soup "div" "result", (mkStub c).isSome = true) :
    (search soup M).length = min (findAllTagClass soup "div" "result").length M
    ∧ ∀ i : Nat,
        (search soup M)[i]? = ((findAllTagClass soup "div" "result").take M)[i]? >>= mkStub := by
  have h' : ∀ c ∈ (findAllTagClass soup "div" "result").take M, (mkStub c).isSome = true :=
    fun c hc => h c (List.take_subset M _ hc)
  constructor
  · unfold search
    rw [filterMap_length_of_isSome mkStub _ h', List.length_take]
    omega
  · intro i
    unfold search
    exact filterMap_getElem_of_isSome mkStub _ h' i

/-- Claim C2, witness at a concrete page with two well-formed containers
and maxResults one. -/
theorem search_min_count_witness :
    (search page1W 1).length = min (findAllTagClass page1W "div" "result").length 1
    ∧ (search page1W 1)[0]? = ((findAllTagClass page1W "div" "result").take 1)[0]? >>= mkStub :=
  ⟨(search_min_count page1W 1 (by decide)).1, (search_min_count page1W 1 (by decide)).2 0⟩

/-- Claim C6 (confirmed): in markdown topic mode, a result body longer
than 5000 characters is emitted as exactly its first 5000 characters plus
the truncation marker, a body of at most 5000 characters is emitted
unmodified, and in markdown url mode the full body is the final segment
of the output, untruncated. -/
theorem format_markdown_truncation :
    (∀ (i : Nat) (r : EnrichedResult) (c : PageContent),
       r.extracted = some c → 5000 < c.content.length →
       mdEntry i r
         = ["## " ++ toString i ++ ". " ++ r.title ++ "\n",
            "**URL:** " ++ r.url ++ "\n",
            "**Summary:** " ++ r.snippet ++ "\n",
            "\n### Content\n",
            pyTake c.content 5000 ++ truncMarker,
            "\n---\n"])
    ∧ (∀ (i : Nat) (r : EnrichedResult) (c : PageContent),
       r.extracted = some c → c.content.length ≤ 5000 →
       mdEntry i r
         = ["## " ++ toString i ++ ". " ++ r.title ++ "\n",
            "**URL:** " ++ r.url ++ "\n",
            "**Summary:** " ++ r.snippet ++ "\n",
            "\n### Content\n",
            c.content,
            "\n---\n"])
    ∧ (∀ (q : String) (rs : List EnrichedResult),
       format_markdown (.topic ⟨q, rs⟩)
         = pyJoin "\n"
             (["# Research: " ++ q ++ "\n",
               "*Generated by Research Agent*\n",
               "*Found " ++ toString rs.length ++ " results*\n",
               "---\n"] ++ mdEntries 1 rs))
    ∧ (∀ c : PageContent,
       format_markdown (.single c)
         = ("# " ++ c.title ++ "\n") ++ "\n"
             ++ (("**URL:** " ++ c.url ++ "\n") ++ "\n" ++ ("\n---\n" ++ "\n" ++ c.content))) := by
  refine ⟨?_, ?_, ?_, ?_⟩
  · intro i r c hx hlen
    simp [mdEntry, hx, if_pos hlen]
  · intro i r c hx hlen
    simp [mdEntry, hx, Nat.not_lt.mpr hlen]
  · intro q rs
    rfl
  · intro c
    rfl

/-- Claim C6, witness at bodies of 6000 and 40 characters. -/
theorem format_markdown_truncation_witness :
    mdEntry 1 r6a
      = ["## " ++ toString 1 ++ ". " ++ r6a.title ++ "\n",
         "**URL:** " ++ r6a.url ++ "\n",
         "**Summary:** " ++ r6a.snippet ++ "\n",
         "\n### Content\n",
         pyTake bigContent 5000 ++ truncMarker,
         "\n---\n"]
    ∧ mdEntry 2 r6b
      = ["## " ++ toString 2 ++ ". " ++ r6b.title ++ "\n",
         "**URL:** " ++ r6b.url ++ "\n",
         "**Summary:** " ++ r6b.snippet ++ "\n",
         "\n### Content\n",
         smallContent,
         "\n---\n"] :=
  ⟨format_markdown_truncation.1 1 r6a ⟨"T", "U", bigContent, "X"⟩ rfl
     (by rw [show bigContent.length = (List.replicate 6000 'a').length from rfl,
           List.length_replicate]
         omega),
   format_markdown_truncation.2.1 2 r6b ⟨"T", "U", smallContent, "X"⟩ rfl
     (by rw [show smallContent.length = (List.replicate 40 'b').length from rfl,
           List.length_replicate]
         omega)⟩

/-- Claim C10 (confirmed): a container with a title anchor but no snippet
element yields a stub whose snippet is the empty string, and a title
anchor without an href attribute yields a stub whose url is the empty
string; in both cases the stub is present, not dropped. -/
theorem mkStub_empty_defaults :
    ∀ (c : Node) (a : Node), findTagClass c "a" "result__a" = some a →
      ((findTagClass c "a" "result__snippet" = none →
          mkStub c = some { title := getTextStrip "" a,
                            url := resolveRedirect ((a.attr "href").getD ""),
                            snippet := "" })
        ∧ (a.attr "href" = none → ∃ s, mkStub c = some s ∧ s.url = "")) := by
  intro c a ha
  constructor
  · intro hs
    simp [mkStub, ha, hs]
  · intro hh
    have hrr : resolveRedirect "" = "" := by decide
    cases hsnip : findTagClass c "a" "result__snippet" with
    | none =>
      refine ⟨{ title := getTextStrip "" a, url := "", snippet := "" }, ?_, rfl⟩
      simp [mkStub, ha, hsnip, hh, hrr]
    | some st =>
      refine ⟨{ title := getTextStrip "" a, url := "", snippet := getTextStrip "" st }, ?_, rfl⟩
      simp [mkStub, ha, hsnip, hh, hrr]

/-- Claim C10, witness at a container with no snippet and no href. -/
theorem mkStub_empty_defaults_witness :
    mkStub cont2W = some { title := getTextStrip "" anchor2W,
                           url := resolveRedirect ((anchor2W.attr "href").getD ""),
                           snippet := "" }
    ∧ ∃ s, mkStub cont2W = some s ∧ s.url = "" :=
  ⟨(mkStub_empty_defaults cont2W anchor2W rfl).1 rfl,
   (mkStub_empty_defaults cont2W anchor2W rfl).2 rfl⟩

/-- Claim C9, amended (stub URLs are only redirect-resolved hrefs, which
may remain relative, empty or redirect-wrapped when decoding is not
possible): every stub produced by the parser takes its url from the
redirect resolution of the href of the title anchor of one of the taken
result containers. -/
theorem search_url_resolution :
    ∀ (soup : Node) (M : Nat) (s : SearchResultStub), s ∈ search soup M →
      ∃ c ∈ (findAllTagClass soup "div" "result").take M,
        ∃ a, findTagClass c "a" "result__a" = some a
          ∧ s.url = resolveRedirect ((a.attr "href").getD "") := by
  intro soup M s hs
  unfold search at hs
  rcases List.mem_filterMap.mp hs with ⟨c, hc, hmk⟩
  refine ⟨c, hc, ?_⟩
  unfold mkStub at hmk
  cases hfind : findTagClass c "a" "result__a" with
  | none => rw [hfind] at hmk; cases hmk
  | some a =>
    rw [hfind] at hmk
    cases hmk
    exact ⟨a, rfl, rfl⟩

/-- Claim C9, witness at the concrete fixtures page. -/
theorem search_url_resolution_witness :
    ∃ c ∈ (findAllTagClass page1W "div" "result").take 5,
      ∃ a, findTagClass c "a" "result__a" = some a
        ∧ (⟨"Title 1", "https://x.org/1", "snip"⟩ : SearchResultStub).url
            = resolveRedirect ((a.attr "href").getD "") :=
  search_url_resolution page1W 5 ⟨"Title 1", "https://x.org/1", "snip"⟩ (by decide)

/-- Claim C9, counterexample to the claim as stated: a redirect-wrapper
href without a destination parameter is handed to the fetch step
unchanged, still scheme-relative and still pointing at the redirect
endpoint, so the produced stub url is neither absolute nor non-redirect. -/
theorem search_url_not_absolute :
    search redirPage 5 = [{ title := "R", url := "//duckduckgo.com/l/?x=1", snippet := "" }]
    ∧ isAbsoluteHttpUrl "//duckduckgo.com/l/?x=1" = false
    ∧ pyStartswith "//duckduckgo.com/l/?x=1" "//duckduckgo.com/l/?" = true := by
  decide

/-- Claim C4, amended (the h1 fallback fires only when no title element
exists at all, not when the title text is empty): when a title element
exists the extracted title is its stripped string, empty when the string
is absent or empty, regardless of any h1; only without a title element is
the first h1 consulted; the title field of an extraction result is always
this resolution. -/
theorem extractTitle_resolution :
    ∀ (soup : Node),
      (∀ tl s, findTag soup "title" = some tl → tagString tl = some s → s ≠ "" →
         extractTitle soup = pyStrip s)
      ∧ (∀ tl, findTag soup "title" = some tl →
          (tagString tl = none ∨ tagString tl = some "") → extractTitle soup = "")
      ∧ (findTag soup "title" = none →
          ∀ h1, findTag soup "h1" = some h1 → extractTitle soup = getTextStrip "" h1)
      ∧ (findTag soup "title" = none → findTag soup "h1" = none → extractTitle soup = "")
      ∧ (∀ url pc, fetch_content url soup = some pc → pc.title = extractTitle soup) := by
  intro soup
  refine ⟨?_, ?_, ?_, ?_, ?_⟩
  · intro tl s htl hts hne
    simp [extractTitle, htl, hts, hne]
  · intro tl htl hcase
    rcases hcase with h | h <;> simp [extractTitle, htl, h]
  · intro htl h1 hh1
    simp [extractTitle, htl, hh1]
  · intro htl hh1
    simp [extractTitle, htl, hh1]
  · intro url pc hf
    simp only [fetch_content] at hf
    split at hf
    · cases hf; rfl
    · cases hf

/-- Claim C4, witness at a page with a padded title and at a page with
only an h1. -/
theorem extractTitle_resolution_witness :
    extractTitle titlePageW = pyStrip " T "
    ∧ extractTitle h1PageW = getTextStrip "" h1NodeW :=
  ⟨(extractTitle_resolution titlePageW).1 titleNodeW " T " rfl rfl (by decide),
   (extractTitle_resolution h1PageW).2.2.1 rfl h1NodeW rfl⟩

/-- Claim C4, counterexample to the claim as stated: on a page with an
empty title element and an h1 reading Foo, the code extracts the empty
string while the claimed resolution order yields Foo. -/
theorem extractTitle_empty_title_cex :
    (fetch_content "u" titleCexPage).map (fun pc => pc.title) = some ""
    ∧ specTitleResolution titleCexPage = "Foo"
    ∧ ("" : String) ≠ "Foo" := by
  decide

/-- Claim C8, amended (a present region always yields a present result,
even with no extractable text): after denylist removal, extraction uses
the first main element, else the first article, else the body, and
returns a present result exactly when one of the three exists — including
a body with no extractable text, in which case the plain text is simply
empty. -/
theorem fetch_content_region_priority :
    ∀ (soup : Node) (url : String),
      (∀ m, findTag soup.clean "main" = some m →
         fetch_content url soup
           = some { title := extractTitle soup, url := url,
                    content := mdRender m, text := getTextStrip "\n" m })
      ∧ (findTag soup.clean "main" = none →
         ∀ a, findTag soup.clean "article" = some a →
         fetch_content url soup
           = some { title := extractTitle soup, url := url,
                    content := mdRender a, text := getTextStrip "\n" a })
      ∧ (findTag soup.clean "main" = none → findTag soup.clean "article" = none →
         ∀ b, findTag soup.clean "body" = some b →
         fetch_content url soup
           = some { title := extractTitle soup, url := url,
                    content := mdRender b, text := getTextStrip "\n" b })
      ∧ (findTag soup.clean "main" = none → findTag soup.clean "article" = none →
         findTag soup.clean "body" = none → fetch_content url soup = none)
      ∧ ((fetch_content url soup).isSome
           = ((findTag soup.clean "main").isSome || (findTag soup.clean "article").isSome
               || (findTag soup.clean "body").isSome)) := by
  intro soup url
  refine ⟨?_, ?_, ?_, ?_, ?_⟩
  · intro m hm
    simp [fetch_content, hm, Option.orElse]
  · intro hm a hart
    simp [fetch_content, hm, hart, Option.orElse]
  · intro hm hart b hb
    simp [fetch_content, hm, hart, hb, Option.orElse]
  · intro hm hart hb
    simp [fetch_content, hm, hart, hb, Option.orElse]
  · cases h1 : findTag soup.clean "main" <;> cases h2 : findTag soup.clean "article" <;>
      cases h3 : findTag soup.clean "body" <;> simp [fetch_content, h1, h2, h3, Option.orElse]

/-- Claim C8, witness at a page whose main element is selected. -/
theorem fetch_content_region_priority_witness :
    fetch_content "u" mainPageW
      = some { title := extractTitle mainPageW, url := "u",
               content := mdRender mainNodeW, text := getTextStrip "\n" mainNodeW } :=
  (fetch_content_region_priority mainPageW "u").1 mainNodeW rfl

/-- Claim C8, counterexample to the claim as stated: a page whose body
exists but has no extractable text still produces a present extraction
result with empty plain text, where the claim asserts an absent result. -/
theorem fetch_content_empty_body_present :
    (fetch_content "u" emptyBodyPage).isSome = true
    ∧ (fetch_content "u" emptyBodyPage).map (fun pc => pc.text) = some "" := by
  decide

/-- Helper: decompose over a sibling forest keeps exactly the text pieces
with no denylisted tag on their path. -/
theorem textPiecesList_cleanList : ∀ cs : List Node,
    Node.textPiecesList (Node.cleanList cs) = Node.allowedTextsList cs
  | [] => rfl
  | .text s :: cs => by
    simp [Node.cleanList, Node.isDenied, Node.textPiecesList, Node.textPieces,
      Node.allowedTextsList, Node.allowedTexts, Node.clean, textPiecesList_cleanList cs]
  | .elem t cl a children :: cs => by
    by_cases hd : t ∈ denylist
    · simp [Node.cleanList, Node.isDenied, hd, Node.allowedTextsList,
        Node.allowedTexts, textPiecesList_cleanList cs]
    · simp [Node.cleanList, Node.isDenied, hd, Node.clean, Node.textPiecesList,
        Node.textPieces, Node.allowedTextsList, Node.allowedTexts,
        textPiecesList_cleanList children, textPiecesList_cleanList cs]

/-- Helper: for a non-denylisted root, the decomposed tree holds exactly
the allowed text pieces of the original tree. -/
theorem textPieces_clean (n : Node) (h : n.isDenied = false) :
    n.clean.textPieces = n.allowedTexts := by
  cases n with
  | text s => rfl
  | elem t cl a cs =>
    have hd : ¬ t ∈ denylist := by
      have : denylist.contains t = false := h
      simpa using this
    simp [Node.clean, Node.textPieces, Node.allowedTexts, hd, textPiecesList_cleanList cs]

/-- Helper: text pieces of a node of a forest are text pieces of the
forest. -/
theorem mem_tp_of_mem_descList : ∀ (cs : List Node) (m : Node),
    m ∈ Node.descList cs → ∀ p ∈ m.textPieces, p ∈ Node.textPiecesList cs
  | [], m, h => by cases h
  | c :: cs, m, h => by
    intro p hp
    rw [Node.descList] at h
    rcases List.mem_cons.mp h with h | h
    · subst h
      simp only [Node.textPiecesList]
      exact List.mem_append_left _ hp
    · rcases List.mem_append.mp h with h | h
      · cases c with
        | text s => simp [Node.descendants] at h
        | elem t cl a cs2 =>
          have hrec := mem_tp_of_mem_descList cs2 m (by simpa [Node.descendants] using h) p hp
          simp only [Node.textPiecesList, Node.textPieces]
          exact List.mem_append_left _ hrec
      · exact List.mem_append_right _ (mem_tp_of_mem_descList cs m h p hp)

/-- Helper: text pieces of a descendant are text pieces of the whole
tree. -/
theorem mem_textPieces_of_mem_descendants (n m : Node) (p : String)
    (hm : m ∈ n.descendants) (hp : p ∈ m.textPieces) : p ∈ n.textPieces := by
  cases n with
  | text s => simp [Node.descendants] at hm
  | elem t cl a cs =>
    simp only [Node.textPieces]
    exact mem_tp_of_mem_descList cs m (by simpa [Node.descendants] using hm) p hp

/-- Helper: decompose keeps the tag of the node it is applied to. -/
theorem clean_isDenied (c : Node) : c.clean.isDenied = c.isDenied := by
  cases c <;> rfl

/-- Helper: no denylisted node survives anywhere below a decomposed
forest. -/
theorem not_denied_descList_cleanList : ∀ (cs : List Node) (m : Node),
    m ∈ Node.descList (Node.cleanList cs) → m.isDenied = false
  | [], m, h => by cases h
  | c :: cs, m, h => by
    by_cases hd : c.isDenied
    · rw [Node.cleanList, if_pos hd] at h
      exact not_denied_descList_cleanList cs m h
    · rw [Node.cleanList, if_neg hd, Node.descList] at h
      rcases List.mem_cons.mp h with h | h
      · subst h
        rw [clean_isDenied]
        exact Bool.not_eq_true _ ▸ (by simpa using hd)
      · rcases List.mem_append.mp h with h | h
        · cases c with
          | text s => simp [Node.clean, Node.descendants] at h
          | elem t cl a cs2 =>
            exact not_denied_descList_cleanList cs2 m
              (by simpa [Node.clean, Node.descendants] using h)
        · exact not_denied_descList_cleanList cs m h

/-- Helper: descendants of a decomposed tree are never denylisted. -/
theorem not_denied_of_mem_descendants_clean (n m : Node)
    (h : m ∈ n.clean.descendants) : m.isDenied = false := by
  cases n with
  | text s => simp [Node.clean, Node.descendants] at h
  | elem t cl a cs =>
    exact not_denied_descList_cleanList cs m (by simpa [Node.clean, Node.descendants] using h)

/-- Helper: the descendant relation over a forest is transitive. -/
theorem mem_descList_trans : ∀ (cs : List Node) (r m : Node),
    r ∈ Node.descList cs → m ∈ r.descendants → m ∈ Node.descList cs
  | [], r, m, hr, _ => by cases hr
  | c :: cs, r, m, hr, hm => by
    rw [Node.descList] at hr ⊢
    rcases List.mem_cons.mp hr with h | h
    · subst h
      exact List.mem_cons_of_mem _ (List.mem_append_left _ hm)
    · rcases List.mem_append.mp h with h | h
      · cases c with
        | text s => simp [Node.descendants] at h
        | elem t cl a cs2 =>
          have hrec := mem_descList_trans cs2 r m (by simpa [Node.descendants] using h) hm
          exact List.mem_cons_of_mem _
            (List.mem_append_left _ (by simpa [Node.descendants] using hrec))
      · exact List.mem_cons_of_mem _ (List.mem_append_right _ (mem_descList_trans cs r m h hm))

/-- Helper: the descendant relation is transitive. -/
theorem mem_descendants_trans (n r m : Node)
    (hr : r ∈ n.descendants) (hm : m ∈ r.descendants) : m ∈ n.descendants := by
  cases n with
  | text s => simp [Node.descendants] at hr
  | elem t cl a cs =>
    simp only [Node.descendants] at hr ⊢
    exact mem_descList_trans cs r m hr hm

/-- Helper: a chained orElse of three options yielding a value means one
of the three yielded it. -/
theorem orElse_eq_some (a b c : Option Node) (r : Node)
    (h : ((a.orElse fun _ => b).orElse fun _ => c) = some r) :
    a = some r ∨ b = some r ∨ c = some r := by
  cases a <;> cases b <;> cases c <;> simp_all [Option.orElse]

/-- Claim C3 (confirmed, at the provenance level): whenever extraction
succeeds on a page whose root is not itself denylisted, both outputs are
rendered from a single region that contains no denylisted element, and
every text piece of that region is a text piece of the original page
reachable without crossing any denylisted tag — so no text originating
from script, style, nav, footer, header or aside, however deeply nested,
contributes to the markdown or the plain text. -/
theorem fetch_content_no_denylisted_text :
    ∀ (soup : Node) (url : String) (pc : PageContent),
      soup.isDenied = false →
      fetch_content url soup = some pc →
      ∃ region,
        pc.content = mdRender region
        ∧ pc.text = getTextStrip "\n" region
        ∧ region.isDenied = false
        ∧ (∀ m ∈ region.descendants, m.isDenied = false)
        ∧ (∀ p ∈ region.textPieces, p ∈ soup.allowedTexts) := by
  intro soup url pc hnd hf
  simp only [fetch_content] at hf
  split at hf
  case _ region hregion =>
    cases hf
    have hregmem : region ∈ soup.clean.descendants := by
      rcases orElse_eq_some _ _ _ _ hregion with h | h | h <;>
        exact List.mem_of_find?_eq_some h
    refine ⟨region, rfl, rfl, ?_, ?_, ?_⟩
    · exact not_denied_of_mem_descendants_clean soup region hregmem
    · intro m hm
      exact not_denied_of_mem_descendants_clean soup m
        (mem_descendants_trans _ region m hregmem hm)
    · intro p hp
      have hclean : p ∈ soup.clean.textPieces :=
        mem_textPieces_of_mem_descendants _ region p hregmem hp
      rwa [textPieces_clean soup hnd] at hclean
  case _ => cases hf

/-- Claim C3, witness at a page whose body holds a nav element: the nav
text does not reach the outputs. -/
theorem fetch_content_no_denylisted_text_witness :
    ∃ region,
      denyPC.content = mdRender region
      ∧ denyPC.text = getTextStrip "\n" region
      ∧ region.isDenied = false
      ∧ (∀ m ∈ region.descendants, m.isDenied = false)
      ∧ (∀ p ∈ region.textPieces, p ∈ denyPageW.allowedTexts) :=
  fetch_content_no_denylisted_text denyPageW "u" denyPC (by decide) (by decide)

theorem takeWhile_all (p : Char → Bool) : ∀ l : List Char,
    (∀ c ∈ l, p c = true) → l.takeWhile p = l
  | [] => fun _ => rfl
  | c :: cs => fun h => by
    rw [List.takeWhile_cons, h c (List.mem_cons_self c cs),
      takeWhile_all p cs fun x hx => h x (List.mem_cons_of_mem c hx)]
    rfl

theorem dropWhile_append_stop (p : Char → Bool) : ∀ (l1 : List Char) (x : Char) (l2 : List Char),
    (∀ c ∈ l1, p c = true) → p x = false → (l1 ++ x :: l2).dropWhile p = x :: l2
  | [], x, l2 => fun _ hx => by simp [List.dropWhile_cons, hx]
  | c :: cs, x, l2 => fun h hx => by
    rw [List.cons_append, List.dropWhile_cons, h c (List.mem_cons_self c cs)]
    simp only [if_true]
    exact dropWhile_append_stop p cs x l2 (fun y hy => h y (List.mem_cons_of_mem c hy)) hx

theorem takeWhile_append_stop (p : Char → Bool) : ∀ (l1 : List Char) (x : Char) (l2 : List Char),
    (∀ c ∈ l1, p c = true) → p x = false → (l1 ++ x :: l2).takeWhile p = l1
  | [], x, l2 => fun _ hx => by simp [List.takeWhile_cons, hx]
  | c :: cs, x, l2 => fun h hx => by
    rw [List.cons_append, List.takeWhile_cons, h c (List.mem_cons_self c cs)]
    simp only [if_true]
    rw [takeWhile_append_stop p cs x l2 (fun y hy => h y (List.mem_cons_of_mem c hy)) hx]

theorem splitList_no_sep (sep : Char) : ∀ l : List Char,
    (∀ c ∈ l, c ≠ sep) → splitList sep l = [l]
  | [] => fun _ => rfl
  | c :: cs => fun h => by
    rw [splitList, if_neg (h c (List.mem_cons_self c cs)),
      splitList_no_sep sep cs fun x hx => h x (List.mem_cons_of_mem c hx)]

theorem hexUpper_facts : ∀ n : Nat, n < 16 →
    isHexDigit (hexDigitCharUpper n) = true ∧ hexVal (hexDigitCharUpper n) = n
    ∧ hexDigitCharUpper n ≠ '+' ∧ hexDigitCharUpper n ≠ '#'
    ∧ hexDigitCharUpper n ≠ '&' ∧ hexDigitCharUpper n ≠ '='
    ∧ hexDigitCharUpper n ≠ '%' ∧ hexDigitCharUpper n ≠ '?' := by decide

theorem unreserved_ne (c : Char) (h : isUnreserved c = true) :
    c ≠ '%' ∧ c ≠ '+' ∧ c ≠ '#' ∧ c ≠ '&' ∧ c ≠ '=' ∧ c ≠ '?' := by
  refine ⟨?_, ?_, ?_, ?_, ?_, ?_⟩ <;> (intro e; subst e; exact absurd h (by decide))

theorem pctEncChar_safe (c : Char) (hc : c.toNat < 128) :
    ∀ c' ∈ pctEncChar c, c' ≠ '#' ∧ c' ≠ '&' ∧ c' ≠ '=' ∧ c' ≠ '?' := by
  intro c' hc'
  by_cases hu : isUnreserved c
  · simp only [pctEncChar, hu, if_true, List.mem_singleton] at hc'
    subst hc'
    have h := unreserved_ne _ hu
    exact ⟨h.2.2.1, h.2.2.2.1, h.2.2.2.2.1, h.2.2.2.2.2⟩
  · simp only [pctEncChar, hu, Bool.false_eq_true, if_false, List.mem_cons,
      List.mem_singleton, List.not_mem_nil, or_false] at hc'
    rcases hc' with h | h | h
    · subst h; exact ⟨by decide, by decide, by decide, by decide⟩
    · subst h
      have hf := hexUpper_facts (c.toNat / 16) (by omega)
      exact ⟨hf.2.2.2.1, hf.2.2.2.2.1, hf.2.2.2.2.2.1, hf.2.2.2.2.2.2.2⟩
    · subst h
      have hf := hexUpper_facts (c.toNat % 16) (Nat.mod_lt _ (by decide))
      exact ⟨hf.2.2.2.1, hf.2.2.2.2.1, hf.2.2.2.2.2.1, hf.2.2.2.2.2.2.2⟩

theorem unquoteAux_cons_ne (c : Char) (xs : List Char) (h : c ≠ '%') :
    unquoteAux (c :: xs) = c :: unquoteAux xs := by
  rw [unquoteAux.eq_def]
  simp [h]

theorem unquoteAux_pct (h1 h2 : Char) (xs : List Char)
    (hh : (isHexDigit h1 && isHexDigit h2) = true) :
    unquoteAux ('%' :: h1 :: h2 :: xs)
      = Char.ofNat (16 * hexVal h1 + hexVal h2) :: unquoteAux xs := by
  simp [unquoteAux, hh]

theorem unquoteAux_enc : ∀ l : List Char, (∀ c ∈ l, c.toNat < 128) →
    unquoteAux ((l.flatMap pctEncChar).map (fun c => if c = '+' then ' ' else c)) = l := by
  intro l
  induction l with
  | nil => intro _; rfl
  | cons c rest ih =>
    intro h
    have hc := h c (List.mem_cons_self c rest)
    have hrest := fun x hx => h x (List.mem_cons_of_mem c hx)
    rw [List.flatMap_cons, List.map_append]
    by_cases hu : isUnreserved c
    · have hne := unreserved_ne c hu
      rw [show pctEncChar c = [c] from by simp [pctEncChar, hu]]
      rw [List.map_cons, List.map_nil, if_neg hne.2.1, List.singleton_append,
        unquoteAux_cons_ne c _ hne.1, ih hrest]
    · have hd1 := hexUpper_facts (c.toNat / 16) (by omega)
      have hd2 := hexUpper_facts (c.toNat % 16) (Nat.mod_lt _ (by decide))
      rw [show pctEncChar c
            = ['%', hexDigitCharUpper (c.toNat / 16), hexDigitCharUpper (c.toNat % 16)]
          from by simp [pctEncChar, hu]]
      rw [List.map_cons, List.map_cons, List.map_cons, List.map_nil,
        if_neg (by decide : ¬('%' : Char) = '+'), if_neg hd1.2.2.1, if_neg hd2.2.2.1]
      rw [List.cons_append, List.cons_append, List.cons_append, List.nil_append]
      rw [unquoteAux_pct _ _ _ (by rw [hd1.1, hd2.1]; rfl)]
      rw [hd1.2.1, hd2.2.1, show 16 * (c.toNat / 16) + c.toNat % 16 = c.toNat from by omega,
        Char.ofNat_toNat, ih hrest]

theorem unquotePlus_percentEncode (d : String) (h : ∀ c ∈ d.data, c.toNat < 128) :
    unquotePlus (percentEncode d) = d := by
  have := unquoteAux_enc d.data h
  exact congrArg String.mk this

theorem qsPair_uddg (enc : List Char) (hne : enc ≠ []) :
    qsPair ⟨"uddg=".data ++ enc⟩ = some ("uddg", unquotePlus ⟨enc⟩) := by
  have hdata : ("uddg=".data ++ enc) = (['u','d','d','g'] ++ '=' :: enc) := rfl
  have hnonempty : (⟨"uddg=".data ++ enc⟩ : String) ≠ "" := by
    intro h
    have h2 := congrArg String.data h
    simp at h2
  have hcontains : ("uddg=".data ++ enc).contains '=' = true := by
    simp [List.contains]
  have htake : ("uddg=".data ++ enc).takeWhile (fun c => c ≠ '=') = ['u','d','d','g'] := by
    rw [hdata]
    exact takeWhile_append_stop _ _ _ _ (by decide) (by decide)
  have hdrop : ("uddg=".data ++ enc).dropWhile (fun c => c ≠ '=') = '=' :: enc := by
    rw [hdata]
    exact dropWhile_append_stop _ _ _ _ (by decide) (by decide)
  have hvne : (⟨enc⟩ : String) ≠ "" := fun h => hne (congrArg String.data h)
  rw [qsPair, if_neg hnonempty]
  simp only [hcontains, if_true]
  rw [htake, hdrop]
  simp only [List.drop_succ_cons, List.drop_zero]
  rw [if_neg (by simpa using hvne)]
  have : unquotePlus ⟨['u','d','d','g']⟩ = "uddg" := by decide
  rw [this]

end ResearchAgent

namespace ResearchAgent

/-- Claim C5 (confirmed): a redirect-wrapper URL whose uddg query
parameter decodes to a non-empty destination resolves to exactly that
destination — in particular, wrapping any non-empty ASCII destination
with the urllib percent-encoder and resolving recovers the destination
verbatim — while a wrapper without a decodable destination, and any
non-wrapper URL, is passed through unchanged rather than dropped. -/
theorem resolveRedirect_correct :
    (∀ (u d : String), pyStartswith u "//duckduckgo.com/l/?" = true →
       ((parseQsl (urlQuery u)).lookup "uddg").getD "" = d → d ≠ "" →
       resolveRedirect u = d)
    ∧ (∀ u : String, pyStartswith u "//duckduckgo.com/l/?" = true →
       ((parseQsl (urlQuery u)).lookup "uddg").getD "" = "" → resolveRedirect u = u)
    ∧ (∀ u : String, pyStartswith u "//duckduckgo.com/l/?" = false → resolveRedirect u = u)
    ∧ (∀ d : String, d ≠ "" → (∀ c ∈ d.data, c.toNat < 128) →
       resolveRedirect ("//duckduckgo.com/l/?uddg=" ++ percentEncode d) = d) := by
  have part1 : ∀ (u d : String), pyStartswith u "//duckduckgo.com/l/?" = true →
      ((parseQsl (urlQuery u)).lookup "uddg").getD "" = d → d ≠ "" →
      resolveRedirect u = d := by
    intro u d hstart hlook hne
    rw [resolveRedirect, if_pos hstart, hlook, if_pos hne]
  have part2 : ∀ u : String, pyStartswith u "//duckduckgo.com/l/?" = true →
      ((parseQsl (urlQuery u)).lookup "uddg").getD "" = "" → resolveRedirect u = u := by
    intro u hstart hlook
    rw [resolveRedirect, if_pos hstart, hlook]
    simp
  have part3 : ∀ u : String, pyStartswith u "//duckduckgo.com/l/?" = false →
      resolveRedirect u = u := by
    intro u hstart
    rw [resolveRedirect, if_neg (by simp [hstart])]
  refine ⟨part1, part2, part3, ?_⟩
  intro d hdne hascii
  -- abbreviations
  have hencsafe : ∀ c' ∈ d.data.flatMap pctEncChar,
      c' ≠ '#' ∧ c' ≠ '&' ∧ c' ≠ '=' ∧ c' ≠ '?' := by
    intro c' hc'
    rcases List.mem_flatMap.mp hc' with ⟨c, hcmem, hc'in⟩
    exact pctEncChar_safe c (hascii c hcmem) c' hc'in
  have hencne : d.data.flatMap pctEncChar ≠ [] := by
    cases hd : d.data with
    | nil =>
      exact absurd (by apply String.ext; simpa using hd) hdne
    | cons a as =>
      have hp : pctEncChar a ≠ [] := by
        by_cases hu : isUnreserved a <;> simp [pctEncChar, hu]
      rw [List.flatMap_cons]
      intro hcontra
      exact hp (List.append_eq_nil.mp hcontra).1
  -- data of the wrapped URL
  have hdata : ("//duckduckgo.com/l/?uddg=" ++ percentEncode d).data
      = "//duckduckgo.com/l/".data ++ '?' :: ("uddg=".data ++ d.data.flatMap pctEncChar) := by
    rw [String.data_append]
    rfl
  -- startswith
  have hstart : pyStartswith ("//duckduckgo.com/l/?uddg=" ++ percentEncode d)
      "//duckduckgo.com/l/?" = true := by
    rw [pyStartswith, hdata]
    have : "//duckduckgo.com/l/?".data ++ ("uddg=".data ++ d.data.flatMap pctEncChar)
        = "//duckduckgo.com/l/".data ++ '?' :: ("uddg=".data ++ d.data.flatMap pctEncChar) := by
      rfl
    rw [← this]
    exact List.isPrefixOf_iff_prefix.mpr (List.prefix_append _ _)
  -- query extraction
  have hquery : urlQuery ("//duckduckgo.com/l/?uddg=" ++ percentEncode d)
      = ⟨"uddg=".data ++ d.data.flatMap pctEncChar⟩ := by
    rw [urlQuery, hdata]
    have htw : ("//duckduckgo.com/l/".data ++ '?' :: ("uddg=".data ++ d.data.flatMap pctEncChar)).takeWhile
        (fun c => c ≠ '#')
        = "//duckduckgo.com/l/".data ++ '?' :: ("uddg=".data ++ d.data.flatMap pctEncChar) := by
      apply takeWhile_all
      intro c hc
      rcases List.mem_append.mp hc with hc | hc
      · have hcc : ∀ x ∈ "//duckduckgo.com/l/".data, decide (x ≠ '#') = true := by decide
        exact hcc c hc
      · rcases List.mem_cons.mp hc with rfl | hc
        · decide
        · rcases List.mem_append.mp hc with hc | hc
          · have hcc : ∀ x ∈ "uddg=".data, decide (x ≠ '#') = true := by decide
            exact hcc c hc
          · simp [(hencsafe c hc).1]
    rw [htw]
    have hdw : ("//duckduckgo.com/l/".data ++ '?' :: ("uddg=".data ++ d.data.flatMap pctEncChar)).dropWhile
        (fun c => c ≠ '?')
        = '?' :: ("uddg=".data ++ d.data.flatMap pctEncChar) :=
      dropWhile_append_stop _ _ _ _ (by decide) (by decide)
    rw [hdw]
    rfl
  -- parse_qsl
  have hsplit : splitList '&' ("uddg=".data ++ d.data.flatMap pctEncChar)
      = ["uddg=".data ++ d.data.flatMap pctEncChar] := by
    apply splitList_no_sep
    intro c hc
    rcases List.mem_append.mp hc with hc | hc
    · have hcc : ∀ x ∈ "uddg=".data, x ≠ '&' := by decide
      exact hcc c hc
    · exact (hencsafe c hc).2.1
  have hqs : parseQsl ⟨"uddg=".data ++ d.data.flatMap pctEncChar⟩
      = [("uddg", d)] := by
    rw [parseQsl]
    have : (⟨"uddg=".data ++ d.data.flatMap pctEncChar⟩ : String).data
        = "uddg=".data ++ d.data.flatMap pctEncChar := rfl
    rw [this, hsplit]
    rw [List.filterMap_cons, qsPair_uddg _ hencne]
    have hdec : unquotePlus ⟨d.data.flatMap pctEncChar⟩ = d :=
      unquotePlus_percentEncode d hascii
    rw [hdec]
    rfl
  -- assemble
  apply part1 _ _ hstart _ hdne
  rw [hquery, hqs]
  rfl

/-- Claim C5, witness: a concrete encoded destination round-trips, and a
non-wrapper URL is unchanged. -/
theorem resolveRedirect_correct_witness :
    resolveRedirect ("//duckduckgo.com/l/?uddg=" ++ percentEncode "https://example.org/page")
        = "https://example.org/page"
    ∧ resolveRedirect "https://a.b/c" = "https://a.b/c" :=
  ⟨resolveRedirect_correct.2.2.2 "https://example.org/page" (by decide) (by decide),
   resolveRedirect_correct.2.2.1 "https://a.b/c" (by decide)⟩

-- literal data lemmas
theorem data_obr : ("\x7b\n" : String).data = ['\x7b', '\n'] := rfl
theorem data_colsp : (": " : String).data = [':', ' '] := rfl
theorem data_commanl : (",\n" : String).data = [',', '\n'] := rfl
theorem data_nl : ("\n" : String).data = ['\n'] := rfl
theorem data_arro : ("[\n" : String).data = ['[', '\n'] := rfl
theorem data_arre : ("[]" : String).data = ['[', ']'] := rfl
theorem data_arrc : ("]" : String).data = [']'] := rfl
theorem data_objempty : ("\x7b\x7d" : String).data = ['\x7b', '\x7d'] := rfl
theorem data_objc : ("\x7d" : String).data = ['\x7d'] := rfl
theorem data_indent (n : Nat) : (indentStr n).data = List.replicate (2 * n) ' ' := rfl

-- skipWs step lemmas
theorem skipWs_nl (s : List Char) : skipWs ('\n' :: s) = skipWs s := rfl
theorem skipWs_sp (s : List Char) : skipWs (' ' :: s) = skipWs s := rfl
theorem skipWs_replicate (n : Nat) (s : List Char) :
    skipWs (List.replicate n ' ' ++ s) = skipWs s := by
  induction n with
  | zero => rfl
  | succ m ih => rw [List.replicate_succ, List.cons_append, skipWs_sp, ih]
theorem skipWs_quote (s : List Char) : skipWs ('"' :: s) = '"' :: s := rfl
theorem skipWs_obr (s : List Char) : skipWs ('\x7b' :: s) = '\x7b' :: s := rfl
theorem skipWs_cbr (s : List Char) : skipWs ('\x7d' :: s) = '\x7d' :: s := rfl
theorem skipWs_osq (s : List Char) : skipWs ('[' :: s) = '[' :: s := rfl
theorem skipWs_csq (s : List Char) : skipWs (']' :: s) = ']' :: s := rfl
theorem skipWs_comma (s : List Char) : skipWs (',' :: s) = ',' :: s := rfl
theorem skipWs_colon (s : List Char) : skipWs (':' :: s) = ':' :: s := rfl

-- parseStrAux step lemmas
theorem psa_quote (r : List Char) : parseStrAux ('"' :: r) = some ([], r) := by
  rw [parseStrAux.eq_def]; simp
theorem psa_esc_quote (r : List Char) : parseStrAux ('\\' :: '"' :: r) = consFst '"' (parseStrAux r) := by
  rw [parseStrAux.eq_def]; simp
theorem psa_esc_back (r : List Char) : parseStrAux ('\\' :: '\\' :: r) = consFst '\\' (parseStrAux r) := by
  rw [parseStrAux.eq_def]; simp
theorem psa_esc_b (r : List Char) : parseStrAux ('\\' :: 'b' :: r) = consFst '\x08' (parseStrAux r) := by
  rw [parseStrAux.eq_def]; simp
theorem psa_esc_f (r : List Char) : parseStrAux ('\\' :: 'f' :: r) = consFst '\x0c' (parseStrAux r) := by
  rw [parseStrAux.eq_def]; simp
theorem psa_esc_n (r : List Char) : parseStrAux ('\\' :: 'n' :: r) = consFst '\n' (parseStrAux r) := by
  rw [parseStrAux.eq_def]; simp
theorem psa_esc_r (r : List Char) : parseStrAux ('\\' :: 'r' :: r) = consFst '\r' (parseStrAux r) := by
  rw [parseStrAux.eq_def]; simp
theorem psa_esc_t (r : List Char) : parseStrAux ('\\' :: 't' :: r) = consFst '\t' (parseStrAux r) := by
  rw [parseStrAux.eq_def]; simp

theorem psa_u (d1 d2 d3 d4 : Char) (r : List Char)
    (h : (isHexDigit d1 && isHexDigit d2 && isHexDigit d3 && isHexDigit d4) = true) :
    parseStrAux ('\\' :: 'u' :: d1 :: d2 :: d3 :: d4 :: r)
      = consFst (Char.ofNat (((hexVal d1 * 16 + hexVal d2) * 16 + hexVal d3) * 16 + hexVal d4))
          (parseStrAux r) := by
  rw [parseStrAux.eq_def]
  simp [h]

theorem psa_raw (c : Char) (r : List Char) (h1 : c ≠ '"') (h2 : c ≠ '\\') :
    parseStrAux (c :: r) = consFst c (parseStrAux r) := by
  rw [parseStrAux.eq_def]
  simp [h1, h2]

theorem hexLower_facts : ∀ n : Nat, n < 16 →
    isHexDigit (hexDigitChar n) = true ∧ hexVal (hexDigitChar n) = n := by decide

theorem parseStrAux_enc : ∀ (cs : List Char) (rest : List Char),
    parseStrAux (cs.flatMap jsonEscapeChar ++ ('"' :: rest)) = some (cs, rest) := by
  intro cs
  induction cs with
  | nil =>
    intro rest
    rw [List.flatMap_nil, List.nil_append, psa_quote]
  | cons c cs ih =>
    intro rest
    rw [List.flatMap_cons, List.append_assoc]
    by_cases h1 : c = '\\'
    · subst h1
      rw [show jsonEscapeChar '\\' = ['\\', '\\'] from rfl]
      rw [List.cons_append, List.cons_append, List.nil_append, psa_esc_back, ih, consFst]
    · by_cases h2 : c = '"'
      · subst h2
        rw [show jsonEscapeChar '"' = ['\\', '"'] from rfl]
        rw [List.cons_append, List.cons_append, List.nil_append, psa_esc_quote, ih, consFst]
      · by_cases h3 : c = '\x08'
        · subst h3
          rw [show jsonEscapeChar '\x08' = ['\\', 'b'] from rfl]
          rw [List.cons_append, List.cons_append, List.nil_append, psa_esc_b, ih, consFst]
        · by_cases h4 : c = '\x0c'
          · subst h4
            rw [show jsonEscapeChar '\x0c' = ['\\', 'f'] from rfl]
            rw [List.cons_append, List.cons_append, List.nil_append, psa_esc_f, ih, consFst]
          · by_cases h5 : c = '\n'
            · subst h5
              rw [show jsonEscapeChar '\n' = ['\\', 'n'] from rfl]
              rw [List.cons_append, List.cons_append, List.nil_append, psa_esc_n, ih, consFst]
            · by_cases h6 : c = '\r'
              · subst h6
                rw [show jsonEscapeChar '\r' = ['\\', 'r'] from rfl]
                rw [List.cons_append, List.cons_append, List.nil_append, psa_esc_r, ih, consFst]
              · by_cases h7 : c = '\t'
                · subst h7
                  rw [show jsonEscapeChar '\t' = ['\\', 't'] from rfl]
                  rw [List.cons_append, List.cons_append, List.nil_append, psa_esc_t, ih, consFst]
                · by_cases h8 : c.toNat < 32
                  · rw [show jsonEscapeChar c
                        = ['\\', 'u', '0', '0', hexDigitChar (c.toNat / 16), hexDigitChar (c.toNat % 16)]
                      from by simp [jsonEscapeChar, h1, h2, h3, h4, h5, h6, h7, h8]]
                    have hf1 := hexLower_facts (c.toNat / 16) (by omega)
                    have hf2 := hexLower_facts (c.toNat % 16) (Nat.mod_lt _ (by decide))
                    simp only [List.cons_append, List.nil_append]
                    rw [psa_u _ _ _ _ _
                      (by simp [hf1.1, hf2.1, show isHexDigit '0' = true from by decide])]
                    rw [ih, consFst]
                    have : ((hexVal '0' * 16 + hexVal '0') * 16 + hexVal (hexDigitChar (c.toNat / 16))) * 16
                          + hexVal (hexDigitChar (c.toNat % 16)) = c.toNat := by
                      rw [hf1.2, hf2.2]
                      have : hexVal '0' = 0 := by decide
                      rw [this]
                      omega
                    rw [this, Char.ofNat_toNat]
                  · rw [show jsonEscapeChar c = [c]
                      from by simp [jsonEscapeChar, h1, h2, h3, h4, h5, h6, h7, h8]]
                    rw [List.cons_append, List.nil_append, psa_raw c _ h2 h1, ih, consFst]

theorem parseJString_dump (s : String) (rest : List Char) :
    parseJString ((jsonDumpString s).data ++ rest) = some (s, rest) := by
  have hdata : (jsonDumpString s).data ++ rest
      = '"' :: (s.data.flatMap jsonEscapeChar ++ ('"' :: rest)) := by
    rw [show (jsonDumpString s).data = '"' :: (s.data.flatMap jsonEscapeChar ++ ['"']) from rfl]
    simp [List.append_assoc]
  rw [hdata, parseJString, parseStrAux_enc]


theorem skipWs_jds (s : String) (r : List Char) :
    skipWs ((jsonDumpString s).data ++ r) = (jsonDumpString s).data ++ r := by
  rw [show (jsonDumpString s).data = '"' :: (s.data.flatMap jsonEscapeChar ++ ['"']) from rfl]
  rw [List.cons_append, skipWs_quote]

theorem parseContentObj_dump (c : PageContent) (level : Nat) (rest : List Char) :
    parseContentObj ((dumpsJson level (contentToJson c)).data ++ rest) = some (c, rest) := by
  simp only [contentToJson, dumpsJson, dumpsObjRest, String.data_append,
    data_obr, data_colsp, data_commanl, data_nl, data_objc, data_indent,
    List.cons_append, List.append_assoc, List.nil_append]
  simp only [parseContentObj, parseKeyString, parseComma,
    Option.bind_eq_bind', Option.some_bind', eq_self_iff_true, if_true,
    skipWs_obr, skipWs_nl, skipWs_sp, skipWs_replicate, skipWs_quote, skipWs_comma,
    skipWs_colon, skipWs_cbr, skipWs_jds, parseJString_dump]


theorem parseResultObj_dump_ws (r : EnrichedResult) (level n : Nat) (rest : List Char) :
    parseResultObj ('\n' :: (List.replicate n ' '
        ++ ((dumpsJson level (resultToJson r)).data ++ rest)))
      = some (r, rest) := by
  obtain ⟨t, u, sn, ex⟩ := r
  cases ex with
  | none =>
    simp only [resultToJson, contentToJson, dumpsJson, dumpsObjRest,
      parseResultObj, parseContentObj, parseKeyString, parseComma,
      Option.bind_eq_bind', Option.some_bind', eq_self_iff_true, if_true,
      String.data_append, data_obr, data_colsp, data_commanl, data_nl, data_objc,
      data_indent, List.cons_append, List.append_assoc, List.nil_append, List.append_nil,
      skipWs_obr, skipWs_nl, skipWs_sp, skipWs_replicate, skipWs_quote, skipWs_comma,
      skipWs_colon, skipWs_cbr, skipWs_jds, parseJString_dump]
  | some c =>
    simp only [resultToJson, contentToJson, dumpsJson, dumpsObjRest,
      parseResultObj, parseContentObj, parseKeyString, parseComma,
      Option.bind_eq_bind', Option.some_bind', eq_self_iff_true, if_true,
      String.data_append, data_obr, data_colsp, data_commanl, data_nl, data_objc,
      data_indent, List.cons_append, List.append_assoc, List.nil_append, List.append_nil,
      skipWs_obr, skipWs_nl, skipWs_sp, skipWs_replicate, skipWs_quote, skipWs_comma,
      skipWs_colon, skipWs_cbr, skipWs_jds, parseJString_dump]


theorem parseResultsAux_dump (level : Nat) (xs : List EnrichedResult) :
    ∀ (x : EnrichedResult) (rest : List Char) (fuel : Nat),
    xs.length < fuel →
    parseResultsAux fuel
      ('\n' :: (List.replicate (2 * (level + 1)) ' '
        ++ ((dumpsJson (level + 1) (resultToJson x)).data
        ++ ((dumpsArrRest (level + 1) (xs.map resultToJson)).data
        ++ '\n' :: (List.replicate (2 * level) ' ' ++ ']' :: rest)))))
      = some (x :: xs, rest) := by
  induction xs with
  | nil =>
    intro x rest fuel hf
    cases fuel with
    | zero => omega
    | succ f =>
      rw [parseResultsAux]
      simp only [List.map_nil, dumpsArrRest, String.data_append, List.nil_append,
        show ("" : String).data = [] from rfl]
      rw [parseResultObj_dump_ws]
      simp only [Option.bind_eq_bind', Option.some_bind', skipWs_nl, skipWs_replicate,
        skipWs_csq]
  | cons y ys ih =>
    intro x rest fuel hf
    cases fuel with
    | zero => omega
    | succ f =>
      rw [parseResultsAux]
      simp only [List.map_cons, dumpsArrRest, String.data_append, data_commanl,
        data_indent, List.cons_append, List.append_assoc, List.nil_append]
      rw [parseResultObj_dump_ws]
      simp only [Option.bind_eq_bind', Option.some_bind', skipWs_comma]
      rw [ih y rest f (by simpa using Nat.lt_of_succ_lt_succ hf)]
      simp


theorem resultdump_append_head (level : Nat) (r : EnrichedResult) (rest : List Char) :
    ((dumpsJson level (resultToJson r)).data ++ rest).head? = some '\x7b' := by
  obtain ⟨t, u, sn, ex⟩ := r
  cases ex <;> rfl

theorem skipWs_resultdump (level : Nat) (r : EnrichedResult) (rest : List Char) :
    skipWs ((dumpsJson level (resultToJson r)).data ++ rest)
      = (dumpsJson level (resultToJson r)).data ++ rest := by
  obtain ⟨t, u, sn, ex⟩ := r
  cases ex <;> rfl

theorem dumpsArrRest_length (level : Nat) : ∀ xs : List EnrichedResult,
    xs.length ≤ (dumpsArrRest level (xs.map resultToJson)).data.length
  | [] => by simp
  | y :: ys => by
    have ih := dumpsArrRest_length level ys
    simp only [List.map_cons, dumpsArrRest, String.data_append, List.length_append,
      List.length_cons, data_commanl, data_indent]
    simp only [List.length_cons, List.length_nil]
    omega

theorem parseResultsArr_dump (level : Nat) (rs : List EnrichedResult) (rest : List Char) :
    parseResultsArr (' ' :: ((dumpsJson level (Json.arr (rs.map resultToJson))).data ++ rest))
      = some (rs, rest) := by
  cases rs with
  | nil =>
    simp only [List.map_nil, dumpsJson, data_arre, List.cons_append, List.nil_append,
      parseResultsArr, skipWs_sp, skipWs_osq, skipWs_csq]
    simp
  | cons x xs =>
    rw [List.map_cons]
    rw [show dumpsJson level (Json.arr (resultToJson x :: List.map resultToJson xs))
          = "[\n" ++ indentStr (level + 1) ++ dumpsJson (level + 1) (resultToJson x)
            ++ dumpsArrRest (level + 1) (List.map resultToJson xs)
            ++ "\n" ++ indentStr level ++ "]" from rfl]
    simp only [String.data_append, data_arro, data_nl, data_arrc, data_indent,
      List.cons_append, List.append_assoc, List.nil_append]
    rw [parseResultsArr]
    simp only [skipWs_sp, skipWs_osq, skipWs_nl, skipWs_replicate, skipWs_resultdump]
    rw [resultdump_append_head, if_neg (by decide : ¬ (some '\x7b' = some (']' : Char)))]
    have hlen : xs.length
        < ('\n' :: (List.replicate (2 * (level + 1)) ' '
            ++ ((dumpsJson (level + 1) (resultToJson x)).data
            ++ ((dumpsArrRest (level + 1) (List.map resultToJson xs)).data
            ++ '\n' :: (List.replicate (2 * level) ' ' ++ ']' :: rest))))).length + 1 := by
      have hb := dumpsArrRest_length (level + 1) xs
      simp only [List.length_cons, List.length_append, List.length_replicate]
      omega
    rw [parseResultsAux_dump level xs x rest _ hlen]


/-- Claim C7 (confirmed): deserializing the string produced by the JSON
formatter reproduces the whole research document — every title, url,
snippet, markdown body and plain text field of both document shapes —
exactly, with no truncation or loss. -/
theorem parse_document_format_json (doc : ResearchDocument) :
    parse_document (format_json doc) = some doc := by
  cases doc with
  | single c =>
    rw [show format_json (ResearchDocument.single c) = dumpsJson 0 (contentToJson c) from rfl]
    rw [parse_document]
    simp only [contentToJson, dumpsJson, dumpsObjRest, parseKeyString, parseComma,
      Option.bind_eq_bind', Option.some_bind', eq_self_iff_true, if_true,
      String.data_append, data_obr, data_colsp, data_commanl, data_nl, data_objc,
      data_indent, List.cons_append, List.append_assoc, List.nil_append, List.append_nil,
      skipWs_obr, skipWs_nl, skipWs_sp, skipWs_replicate, skipWs_quote, skipWs_comma,
      skipWs_colon, skipWs_cbr, skipWs_jds, parseJString_dump,
      show (("title" : String) = "query") = False from by simp, if_false,
      Nat.mul_zero, List.replicate_zero]
  | topic d =>
    obtain ⟨q, rs⟩ := d
    rw [show format_json (ResearchDocument.topic ⟨q, rs⟩)
          = dumpsJson 0 (Json.obj [("query", Json.str q),
              ("results", Json.arr (List.map resultToJson rs))]) from rfl]
    rw [show dumpsJson 0 (Json.obj [("query", Json.str q),
              ("results", Json.arr (List.map resultToJson rs))])
          = "\x7b\n" ++ indentStr 1 ++ jsonDumpString "query" ++ ": " ++ jsonDumpString q
            ++ (",\n" ++ indentStr 1 ++ jsonDumpString "results" ++ ": "
                ++ dumpsJson 1 (Json.arr (List.map resultToJson rs)) ++ "")
            ++ "\n" ++ indentStr 0 ++ "\x7d" from rfl]
    rw [parse_document]
    simp only [String.data_append, data_obr, data_colsp, data_commanl, data_nl, data_objc,
      data_indent, show ("" : String).data = [] from rfl,
      List.cons_append, List.append_assoc, List.nil_append, List.append_nil,
      Nat.mul_zero, List.replicate_zero]
    simp only [parseComma, Option.bind_eq_bind', Option.some_bind', eq_self_iff_true, if_true,
      skipWs_obr, skipWs_nl, skipWs_sp, skipWs_replicate, skipWs_quote, skipWs_comma,
      skipWs_colon, skipWs_cbr, skipWs_jds, parseJString_dump,
      parseResultsArr_dump]

end ResearchAgent
